import Mathlib

/-!
Verification of the isometric tile-map sandbox engine (src/script.js).

The JavaScript source is shallowly embedded: the grid is a function from
(row, column) indices to tiles, JavaScript numbers that stay integral are
modelled as `Int`/`Nat`, mouse coordinates (which may be fractional) as `ℚ`,
the mutable `changes` batch of `updateMap` as an explicit list folded over
the pre-tick grid, and the early-`return` nested scan of `screenToIso` as
nested `List.findSome?`.
-/

-- Game configuration (src/script.js lines 9-16)

def gridSize : Nat := 16

def isoTileWidth : Int := 64

def isoTileHeight : Int := 32

def heightStep : Int := isoTileHeight / 2

def canvasWidth : Int := ((gridSize : Int) + 1) * isoTileWidth

-- Tile and object definitions (lines 18-31)

def GRASS_id : Nat := 0

def WATER_id : Nat := 1

def STONE_id : Nat := 2

def SAND_id : Nat := 3

structure Tile where
  type : Nat
  height : Int
deriving DecidableEq

/-- The map `map[y][x]`, as a function of the row index `y` then column `x`. -/
def Grid : Type := Nat → Nat → Tile

inductive ObjKind
  | fountain
  | excavator
  | obelisk
  | tree
deriving DecidableEq

inductive Effect
  | raise_water
  | lower_terrain
  | raise_terrain
  | spread_grass
deriving DecidableEq

structure ObjectInfo where
  symbol : String
  effect : Effect

def OBJECT_TYPES : ObjKind → ObjectInfo
  | .fountain => { symbol := "?", effect := .raise_water }
  | .excavator => { symbol := "??", effect := .lower_terrain }
  | .obelisk => { symbol := "??", effect := .raise_terrain }
  | .tree => { symbol := "??", effect := .spread_grass }

/-- An element of the `objects` array: `{x, y, type: selectedTool, effect}`. -/
structure GameObject where
  x : Nat
  y : Nat
  type : ObjKind
  effect : Effect
deriving DecidableEq

-- Coordinate conversion (lines 43-61)

def getRotatedCoords (rotation : Nat) (x y : Nat) : Nat × Nat :=
  match rotation with
  | 0 => (x, y)
  | 1 => (gridSize - 1 - y, x)
  | 2 => (gridSize - 1 - x, gridSize - 1 - y)
  | 3 => (y, gridSize - 1 - x)
  | _ => (x, y)

def getInverseRotatedCoords (rotation : Nat) (x y : Nat) : Nat × Nat :=
  match rotation with
  | 0 => (x, y)
  | 1 => (y, gridSize - 1 - x)
  | 2 => (gridSize - 1 - x, gridSize - 1 - y)
  | 3 => (gridSize - 1 - y, x)
  | _ => (x, y)

-- Isometric projection (lines 63-67)

def isoToScreen (x y : Int) : Int × Int :=
  ((x - y) * (isoTileWidth / 2) + canvasWidth / 2 - isoTileWidth / 2,
   (x + y) * (isoTileHeight / 2))

-- Map generation (lines 107-125)

/-- Point update of the grid, modelling an assignment `map[y][x] = t`. -/
def setTile (m : Grid) (y x : Nat) (t : Tile) : Grid :=
  fun y' x' => if y' = y ∧ x' = x then t else m y' x'

def lakeY : Nat := gridSize / 2

def lakeX : Nat := gridSize / 2

/-- The `(i, j)` pairs visited by the nested lake loops, `i` outer, both
running from `-2` to `2`. -/
def lakeOffsets : List (Int × Int) :=
  ((List.range 5).map (fun i => (i : Int) - 2)).flatMap fun i =>
    ((List.range 5).map (fun j => (j : Int) - 2)).map fun j => (i, j)

/-- The state of `map` after the first nested loop of `generateMap`: all
grass, heights `Math.floor(Math.random() * 2) + 1`, with the random draws
supplied by `rng` (cell `(y, x)` consumes draw number `y * gridSize + x`,
the call order of the source loops). -/
def baseMap (rng : Nat → Nat) : Grid := fun y x =>
  { type := GRASS_id, height := ((rng (y * gridSize + x) % 2 : Nat) : Int) + 1 }

/-- `generateMap`; the truthiness bounds test
`map[lakeY+i] && map[lakeY+i][lakeX+j]` becomes an explicit range check. -/
def generateMap (rng : Nat → Nat) : Grid :=
  lakeOffsets.foldl
    (fun m ij =>
      if ij.1.natAbs + ij.2.natAbs < 3 ∧
          0 ≤ (lakeY : Int) + ij.1 ∧ (lakeY : Int) + ij.1 < (gridSize : Int) ∧
          0 ≤ (lakeX : Int) + ij.2 ∧ (lakeX : Int) + ij.2 < (gridSize : Int) then
        setTile m ((lakeY : Int) + ij.1).toNat ((lakeX : Int) + ij.2).toNat
          { type := WATER_id, height := 0 }
      else m)
    (baseMap rng)

-- Neighbour computation (lines 272-283)

def getNeighbors (x y : Nat) : List (Nat × Nat) :=
  let directions : List (Int × Int) := [(-1, 0), (1, 0), (0, -1), (0, 1)]
  directions.filterMap fun dir =>
    let newX := (x : Int) + dir.1
    let newY := (y : Int) + dir.2
    if 0 ≤ newX ∧ newX < (gridSize : Int) ∧ 0 ≤ newY ∧ newY < (gridSize : Int) then
      some (newX.toNat, newY.toNat)
    else none

-- Terrain mutation (lines 245-270)

/-- One element of the `changes` batch: `{x, y, height?, type?}` with the
absent fields `undefined`. -/
structure Change where
  x : Nat
  y : Nat
  height : Option Int := none
  type : Option Nat := none
deriving DecidableEq

/-- The changes pushed while visiting one object of the `objects` loop. -/
def changesFor (m : Grid) (obj : GameObject) : List Change :=
  let tile := m obj.y obj.x
  (getNeighbors obj.x obj.y).flatMap fun n =>
    let neighborTile := m n.2 n.1
    (if obj.effect = Effect.raise_terrain ∧ neighborTile.height < tile.height + 2 then
      [{ x := n.1, y := n.2, height := some (neighborTile.height + 1) }] else []) ++
    (if obj.effect = Effect.lower_terrain ∧ 0 < neighborTile.height then
      [{ x := n.1, y := n.2, height := some (neighborTile.height - 1) }] else []) ++
    (if obj.effect = Effect.raise_water ∧ neighborTile.type ≠ WATER_id then
      [{ x := n.1, y := n.2, type := some WATER_id, height := some tile.height }] else []) ++
    (if obj.effect = Effect.spread_grass ∧ neighborTile.type ≠ GRASS_id then
      [{ x := n.1, y := n.2, type := some GRASS_id }] else [])

/-- Application of one collected change:
`if(c.height !== undefined) ... ; if(c.type !== undefined) ...`. -/
def applyChange (m : Grid) (c : Change) : Grid :=
  fun y x =>
    if y = c.y ∧ x = c.x then
      { type := c.type.getD (m y x).type, height := c.height.getD (m y x).height }
    else m y x

def updateMap (m : Grid) (objects : List GameObject) : Grid :=
  (objects.flatMap (changesFor m)).foldl applyChange m

-- Object placement (lines 315-331, the state-mutating part of handleCanvasClick)

/-- One click with tool `selectedTool` on the already-picked cell `(x, y)`:
`none` models the "There's already an object here!" early return. -/
def placeObject (objects : List GameObject) (selectedTool : ObjKind) (x y : Nat) :
    Option (List GameObject) :=
  match objects.find? (fun obj => obj.x == x && obj.y == y) with
  | some _ => none
  | none =>
      some (objects ++ [{ x := x, y := y, type := selectedTool,
                          effect := (OBJECT_TYPES selectedTool).effect }])

/-- A sequence of placement clicks starting from the empty object list
(`resetGame` sets `objects = []`); a rejected click leaves the list as is. -/
def placeAll (cmds : List (ObjKind × Nat × Nat)) : List GameObject :=
  cmds.foldl (fun objs c => (placeObject objs c.1 c.2.1 c.2.2).getD objs) []

-- Screen picking (lines 69-103), with mouse coordinates as exact rationals
-- (every JavaScript float operation involved is exact on these dyadic inputs)

/-- The rhombus-local coordinates `(transformedX, transformedY)` computed by
`screenToIso` for view-space cell `(x, y)`. -/
def transformedCoords (m : Grid) (rotation : Nat) (mouseX mouseY : ℚ) (x y : Nat) : ℚ × ℚ :=
  let adjustedMouseY := mouseY - 100
  let mapCoords := getRotatedCoords rotation x y
  let tile := m mapCoords.2 mapCoords.1
  let screenPos := isoToScreen (x : Int) (y : Int)
  let tileY : ℚ := (screenPos.2 : ℚ) - (tile.height : ℚ) * (heightStep : ℚ)
  let dx := mouseX - ((screenPos.1 : ℚ) + (isoTileWidth : ℚ) / 2)
  let dy := adjustedMouseY - tileY
  (dx / ((isoTileWidth : ℚ) / 2) + dy / ((isoTileHeight : ℚ) / 2),
   dy / ((isoTileHeight : ℚ) / 2) - dx / ((isoTileWidth : ℚ) / 2))

/-- The "more precise diamond check" of `screenToIso`: both rhombus-local
axes have absolute value `< 1`. -/
def diamondTest (m : Grid) (rotation : Nat) (mouseX mouseY : ℚ) (x y : Nat) : Prop :=
  |(transformedCoords m rotation mouseX mouseY x y).1| < 1 ∧
  |(transformedCoords m rotation mouseX mouseY x y).2| < 1

instance (m : Grid) (rotation : Nat) (mouseX mouseY : ℚ) (x y : Nat) :
    Decidable (diamondTest m rotation mouseX mouseY x y) := by
  unfold diamondTest; exact inferInstance

/-- The body of the doubly-nested scan loop of `screenToIso` at view-space
cell `(x, y)`: `some mapCoords` models the early `return mapCoords`. -/
def cellHit (m : Grid) (rotation : Nat) (mouseX mouseY : ℚ) (x y : Nat) : Option (Nat × Nat) :=
  let adjustedMouseY := mouseY - 100
  let mapCoords := getRotatedCoords rotation x y
  let tile := m mapCoords.2 mapCoords.1
  let screenPos := isoToScreen (x : Int) (y : Int)
  let tileY : ℚ := (screenPos.2 : ℚ) - (tile.height : ℚ) * (heightStep : ℚ)
  if (screenPos.1 : ℚ) ≤ mouseX ∧ mouseX ≤ (screenPos.1 : ℚ) + (isoTileWidth : ℚ) ∧
      tileY - (isoTileHeight : ℚ) ≤ adjustedMouseY ∧
      adjustedMouseY ≤ tileY + (isoTileHeight : ℚ) then
    if diamondTest m rotation mouseX mouseY x y then some mapCoords else none
  else none

/-- `screenToIso`: scan view cells with `y` outer and `x` inner, returning
the first hit, `none` when the scan falls through. -/
def screenToIso (m : Grid) (rotation : Nat) (mouseX mouseY : ℚ) : Option (Nat × Nat) :=
  (List.range gridSize).findSome? fun y =>
    (List.range gridSize).findSome? fun x =>
      cellHit m rotation mouseX mouseY x y

/-- The on-canvas centre of the top face of the tile drawn at view-space cell
`(vx, vy)`: `drawTile` draws that face centred at
`(screenPos.x + isoTileWidth/2, screenPos.y - height*heightStep)`, and the
whole scene is translated down by the 100px the picker subtracts back off. -/
def tileCenter (m : Grid) (rotation : Nat) (vx vy : Nat) : ℚ × ℚ :=
  let mapCoords := getRotatedCoords rotation vx vy
  let screenPos := isoToScreen (vx : Int) (vy : Int)
  ((screenPos.1 : ℚ) + (isoTileWidth : ℚ) / 2,
   (screenPos.2 : ℚ) - ((m mapCoords.2 mapCoords.1).height : ℚ) * (heightStep : ℚ) + 100)

/-- The guard of the lake-carving loop body, as a predicate on the visited
offset pair. -/
def lakeCond (ij : Int × Int) : Prop :=
  ij.1.natAbs + ij.2.natAbs < 3 ∧
    0 ≤ (lakeY : Int) + ij.1 ∧ (lakeY : Int) + ij.1 < (gridSize : Int) ∧
    0 ≤ (lakeX : Int) + ij.2 ∧ (lakeX : Int) + ij.2 < (gridSize : Int)

instance : DecidablePred lakeCond := by
  unfold lakeCond; exact fun ij => inferInstance

/-- The per-field overwrite a single change performs on a single tile. -/
def tileApply (t : Tile) (c : Change) : Tile :=
  { type := c.type.getD t.type, height := c.height.getD t.height }

/-- A concrete grid: grass of height 0 at `(x, y) = (2, 0)`, grass of
height 1 everywhere else. -/
def cexGrid : Grid := fun y x =>
  if y = 0 ∧ x = 2 then { type := GRASS_id, height := 0 }
  else { type := GRASS_id, height := 1 }

/-- A fountain at `(1, 0)` and an obelisk at `(3, 0)`, both 4-adjacent to
the cell `(2, 0)`. -/
def cexObjs : List GameObject :=
  [{ x := 1, y := 0, type := ObjKind.fountain, effect := Effect.raise_water },
   { x := 3, y := 0, type := ObjKind.obelisk, effect := Effect.raise_terrain }]

/-- A grid that is flat height-0 grass except for a height-2 tile at
`(x, y) = (1, 1)`. -/
def cexPickGrid : Grid := fun y x =>
  if y = 1 ∧ x = 1 then { type := GRASS_id, height := 2 }
  else { type := GRASS_id, height := 0 }

/-- C1: the inverse rotation undoes the rotation on every grid point,
for all four rotation values, exactly. -/
theorem rotate_roundtrip (r : Nat) (hr : r < 4) (x : Nat) (hx : x < gridSize)
    (y : Nat) (hy : y < gridSize) :
    getInverseRotatedCoords r (getRotatedCoords r x y).1 (getRotatedCoords r x y).2 = (x, y) := by
  interval_cases r <;> (revert hx; revert x; revert hy; revert y; decide)

/-- Witness for C1 at a concrete point and rotation. -/
theorem rotate_roundtrip_witness :
    getInverseRotatedCoords 1 (getRotatedCoords 1 2 3).1 (getRotatedCoords 1 2 3).2 = (2, 3) :=
  rotate_roundtrip 1 (by decide) 2 (by decide) 3 (by decide)

-- Helper lemmas

/-- Evaluating a fold of guarded `setTile` writes (all writing the same tile)
at one cell: the cell holds `t` exactly when some list element targets it. -/
theorem foldl_setTile_eval (cond : Int × Int → Prop) [DecidablePred cond]
    (fy fx : Int × Int → Nat) (t : Tile) (l : List (Int × Int)) :
    ∀ (m : Grid) (y x : Nat),
      (l.foldl (fun m ij => if cond ij then setTile m (fy ij) (fx ij) t else m) m) y x
        = if ∃ ij ∈ l, cond ij ∧ fy ij = y ∧ fx ij = x then t else m y x := by
  induction l with
  | nil => intro m y x; simp
  | cons p l ih =>
    intro m y x
    simp only [List.foldl_cons]
    by_cases hp : cond p
    · rw [if_pos hp, ih]
      simp only [List.exists_mem_cons_iff, hp, true_and]
      by_cases ht : fy p = y ∧ fx p = x
      · obtain ⟨h1, h2⟩ := ht
        subst h1
        subst h2
        simp [setTile]
      · have hst : setTile m (fy p) (fx p) t y x = m y x := by
          simp only [setTile]
          rw [if_neg (fun h => ht ⟨h.1.symm, h.2.symm⟩)]
        rw [hst]
        exact if_congr (or_iff_right ht).symm rfl rfl
    · rw [if_neg hp, ih]
      simp only [List.exists_mem_cons_iff]
      exact if_congr (or_iff_right (fun h => hp h.1)).symm rfl rfl

/-- C9: `getNeighbors` returns exactly the in-bounds 4-connected neighbours
(Manhattan distance one, both coordinates in `[0, gridSize)`), so every map
access of a tick stays inside the grid. -/
theorem getNeighbors_spec (x : Nat) (hx : x < gridSize) (y : Nat) (hy : y < gridSize) :
    ∀ a b : Nat,
      ((a, b) ∈ getNeighbors x y ↔
        a < gridSize ∧ b < gridSize ∧
          ((a : Int) - (x : Int)).natAbs + ((b : Int) - (y : Int)).natAbs = 1) := by
  intro a b
  simp only [getNeighbors, List.mem_filterMap, List.mem_cons, List.not_mem_nil, or_false,
    Option.ite_none_right_eq_some, Option.some.injEq, Prod.mk.injEq, gridSize,
    exists_eq_or_imp, exists_eq_left]
  omega

/-- Witness for C9: `(1, 0)` is reported as a neighbour of the origin. -/
theorem getNeighbors_spec_witness : (1, 0) ∈ getNeighbors 0 0 :=
  ((getNeighbors_spec 0 (by decide) 0 (by decide) 1 0)).mpr (by decide)

theorem lakeOffsets_list : lakeOffsets =
    [(-2, -2), (-2, -1), (-2, 0), (-2, 1), (-2, 2),
     (-1, -2), (-1, -1), (-1, 0), (-1, 1), (-1, 2),
     (0, -2), (0, -1), (0, 0), (0, 1), (0, 2),
     (1, -2), (1, -1), (1, 0), (1, 1), (1, 2),
     (2, -2), (2, -1), (2, 0), (2, 1), (2, 2)] := by decide

set_option maxHeartbeats 2000000 in
/-- C2: after `generateMap` (for every random outcome), cells at Manhattan
distance below 3 from the centre `(8, 8)` are water of height 0, and all
other cells are grass of height 1 or 2 (in particular non-negative). -/
theorem generateMap_spec (rng : Nat → Nat) (y : Nat) (hy : y < gridSize)
    (x : Nat) (hx : x < gridSize) :
    (((y : Int) - 8).natAbs + ((x : Int) - 8).natAbs < 3 →
        generateMap rng y x = { type := WATER_id, height := 0 }) ∧
    (¬ ((y : Int) - 8).natAbs + ((x : Int) - 8).natAbs < 3 →
        (generateMap rng y x).type = GRASS_id ∧ 0 ≤ (generateMap rng y x).height ∧
          ((generateMap rng y x).height = 1 ∨ (generateMap rng y x).height = 2)) := by
  have heval : generateMap rng y x =
      if ∃ ij ∈ lakeOffsets, lakeCond ij ∧
          ((lakeY : Int) + ij.1).toNat = y ∧ ((lakeX : Int) + ij.2).toNat = x
      then { type := WATER_id, height := 0 } else baseMap rng y x :=
    foldl_setTile_eval lakeCond
      (fun ij => ((lakeY : Int) + ij.1).toNat) (fun ij => ((lakeX : Int) + ij.2).toNat)
      { type := WATER_id, height := 0 } lakeOffsets (baseMap rng) y x
  have hiffAll : ∀ y, y < gridSize → ∀ x, x < gridSize →
      ((∃ ij ∈ lakeOffsets, lakeCond ij ∧
          ((lakeY : Int) + ij.1).toNat = y ∧ ((lakeX : Int) + ij.2).toNat = x) ↔
        ((y : Int) - 8).natAbs + ((x : Int) - 8).natAbs < 3) := by decide
  have hiff := hiffAll y hy x hx
  rw [heval]
  by_cases hc : ((y : Int) - 8).natAbs + ((x : Int) - 8).natAbs < 3
  · rw [if_pos (hiff.mpr hc)]
    exact ⟨fun _ => rfl, fun h => absurd hc h⟩
  · rw [if_neg (fun h => hc (hiff.mp h))]
    refine ⟨fun h => absurd h hc, fun _ => ?_⟩
    refine ⟨rfl, ?_, ?_⟩ <;> simp only [baseMap] <;> omega

/-- Witness for C2 at the centre cell and a corner cell, for a constant rng. -/
theorem generateMap_spec_witness :
    generateMap (fun _ => 1) 8 8 = { type := WATER_id, height := 0 } ∧
    (generateMap (fun _ => 1) 0 0).type = GRASS_id := by
  constructor
  · exact (generateMap_spec (fun _ => 1) 8 (by decide) 8 (by decide)).1 (by decide)
  · exact ((generateMap_spec (fun _ => 1) 0 (by decide) 0 (by decide)).2 (by decide)).1

/-- Inventory of the changes one object can push: each targets a neighbour
and its payload is fixed by the object's effect and the pre-tick tiles. -/
theorem mem_changesFor {m : Grid} {obj : GameObject} {c : Change}
    (hc : c ∈ changesFor m obj) :
    ∃ n ∈ getNeighbors obj.x obj.y, c.x = n.1 ∧ c.y = n.2 ∧
      ((obj.effect = Effect.raise_terrain ∧ (m n.2 n.1).height < (m obj.y obj.x).height + 2 ∧
          c.height = some ((m n.2 n.1).height + 1) ∧ c.type = none) ∨
       (obj.effect = Effect.lower_terrain ∧ 0 < (m n.2 n.1).height ∧
          c.height = some ((m n.2 n.1).height - 1) ∧ c.type = none) ∨
       (obj.effect = Effect.raise_water ∧ (m n.2 n.1).type ≠ WATER_id ∧
          c.height = some ((m obj.y obj.x).height) ∧ c.type = some WATER_id) ∨
       (obj.effect = Effect.spread_grass ∧ (m n.2 n.1).type ≠ GRASS_id ∧
          c.height = none ∧ c.type = some GRASS_id)) := by
  simp only [changesFor, List.mem_flatMap] at hc
  obtain ⟨n, hn, hc⟩ := hc
  refine ⟨n, hn, ?_⟩
  simp only [List.mem_append] at hc
  rcases hc with ((hc | hc) | hc) | hc
  · revert hc; split_ifs with h
    · intro hc
      simp only [List.mem_cons, List.not_mem_nil, or_false] at hc
      subst hc
      exact ⟨rfl, rfl, Or.inl ⟨h.1, h.2, rfl, rfl⟩⟩
    · intro hc; simp at hc
  · revert hc; split_ifs with h
    · intro hc
      simp only [List.mem_cons, List.not_mem_nil, or_false] at hc
      subst hc
      exact ⟨rfl, rfl, Or.inr (Or.inl ⟨h.1, h.2, rfl, rfl⟩)⟩
    · intro hc; simp at hc
  · revert hc; split_ifs with h
    · intro hc
      simp only [List.mem_cons, List.not_mem_nil, or_false] at hc
      subst hc
      exact ⟨rfl, rfl, Or.inr (Or.inr (Or.inl ⟨h.1, h.2, rfl, rfl⟩))⟩
    · intro hc; simp at hc
  · revert hc; split_ifs with h
    · intro hc
      simp only [List.mem_cons, List.not_mem_nil, or_false] at hc
      subst hc
      exact ⟨rfl, rfl, Or.inr (Or.inr (Or.inr ⟨h.1, h.2, rfl, rfl⟩))⟩
    · intro hc; simp at hc

/-- Applying a batch whose height payloads are all non-negative keeps every
height non-negative. -/
theorem foldl_applyChange_nonneg :
    ∀ (cs : List Change) (m : Grid),
      (∀ c ∈ cs, ∀ h, c.height = some h → 0 ≤ h) → (∀ y x, 0 ≤ (m y x).height) →
      ∀ y x, 0 ≤ ((cs.foldl applyChange m) y x).height := by
  intro cs
  induction cs with
  | nil => intro m _ hm y x; exact hm y x
  | cons c cs ih =>
    intro m hcs hm y x
    simp only [List.foldl_cons]
    refine ih (applyChange m c) (fun c' h' => hcs c' (List.mem_cons_of_mem _ h')) ?_ y x
    intro y' x'
    simp only [applyChange]
    split_ifs
    · cases hh : c.height with
      | none => simpa [hh] using hm y' x'
      | some v => simpa [hh] using hcs c (List.mem_cons_self c cs) v hh
    · exact hm y' x'

/-- Every height payload in a tick's batch over a non-negative grid is
non-negative. -/
theorem changes_height_nonneg (m : Grid) (objects : List GameObject)
    (hm : ∀ y x, 0 ≤ (m y x).height) :
    ∀ c ∈ objects.flatMap (changesFor m), ∀ h, c.height = some h → 0 ≤ h := by
  intro c hc h hh
  simp only [List.mem_flatMap] at hc
  obtain ⟨obj, _, hc⟩ := hc
  obtain ⟨n, _, _, _, hcase⟩ := mem_changesFor hc
  have hmn := hm n.2 n.1
  have hmo := hm obj.y obj.x
  rcases hcase with ⟨_, _, hht, _⟩ | ⟨_, hpos, hht, _⟩ | ⟨_, _, hht, _⟩ | ⟨_, _, hht, _⟩ <;>
      rw [hht] at hh
  · obtain rfl : (m n.2 n.1).height + 1 = h := Option.some.inj hh
    omega
  · obtain rfl : (m n.2 n.1).height - 1 = h := Option.some.inj hh
    omega
  · obtain rfl : (m obj.y obj.x).height = h := Option.some.inj hh
    omega
  · exact absurd hh (by simp)

/-- One `updateMap` tick preserves non-negativity of all heights. -/
theorem updateMap_nonneg (m : Grid) (objects : List GameObject)
    (hm : ∀ y x, 0 ≤ (m y x).height) :
    ∀ y x, 0 ≤ ((updateMap m objects) y x).height :=
  foldl_applyChange_nonneg _ m (changes_height_nonneg m objects hm) hm

/-- C3: a raise-terrain change never carries a neighbour above the owner
tile's pre-tick height plus 2, a lower-terrain change never carries a
neighbour below 0, and ticking any number of times keeps every height a
non-negative integer. -/
theorem terrain_clamp (m : Grid) (objects : List GameObject) :
    (∀ obj ∈ objects, obj.effect = Effect.raise_terrain →
        ∀ c ∈ changesFor m obj, ∀ h, c.height = some h →
          h ≤ (m obj.y obj.x).height + 2) ∧
    (∀ obj ∈ objects, obj.effect = Effect.lower_terrain →
        ∀ c ∈ changesFor m obj, ∀ h, c.height = some h → 0 ≤ h) ∧
    ((∀ y x, 0 ≤ (m y x).height) →
        ∀ n y x, 0 ≤ (((fun g => updateMap g objects)^[n] m) y x).height) := by
  refine ⟨?_, ?_, ?_⟩
  · intro obj _ heff c hc h hh
    obtain ⟨n, _, _, _, hcase⟩ := mem_changesFor hc
    rcases hcase with ⟨_, hlt, hht, _⟩ | ⟨hbad, _⟩ | ⟨hbad, _⟩ | ⟨hbad, _⟩
    · rw [hht] at hh
      obtain rfl : (m n.2 n.1).height + 1 = h := Option.some.inj hh
      omega
    all_goals (rw [heff] at hbad; exact absurd hbad (by decide))
  · intro obj _ heff c hc h hh
    obtain ⟨n, _, _, _, hcase⟩ := mem_changesFor hc
    rcases hcase with ⟨hbad, _⟩ | ⟨_, hpos, hht, _⟩ | ⟨hbad, _⟩ | ⟨hbad, _⟩
    · rw [heff] at hbad; exact absurd hbad (by decide)
    · rw [hht] at hh
      obtain rfl : (m n.2 n.1).height - 1 = h := Option.some.inj hh
      omega
    all_goals (rw [heff] at hbad; exact absurd hbad (by decide))
  · intro hm n
    induction n generalizing m with
    | zero => exact hm
    | succ k ih =>
      rw [Function.iterate_succ_apply]
      exact ih (updateMap m objects) (updateMap_nonneg m objects hm)

/-- Witness for C3: one tick of a single obelisk on an all-ones grid keeps
the origin height non-negative. -/
theorem terrain_clamp_witness :
    0 ≤ (((fun g =>
        updateMap g [{ x := 1, y := 1, type := ObjKind.obelisk,
                       effect := Effect.raise_terrain }])^[1]
      (fun _ _ => { type := GRASS_id, height := 1 })) 0 0).height :=
  (terrain_clamp (fun _ _ => { type := GRASS_id, height := 1 })
      [{ x := 1, y := 1, type := ObjKind.obelisk, effect := Effect.raise_terrain }]).2.2
    (fun _ _ => by norm_num) 1 0 0

/-- A cell targeted by no change in the batch is left untouched. -/
theorem foldl_applyChange_frame :
    ∀ (cs : List Change) (m : Grid) (y x : Nat),
      (∀ c ∈ cs, ¬(y = c.y ∧ x = c.x)) → (cs.foldl applyChange m) y x = m y x := by
  intro cs
  induction cs with
  | nil => intro m y x _; rfl
  | cons c cs ih =>
    intro m y x hcs
    simp only [List.foldl_cons]
    rw [ih (applyChange m c) y x (fun c' h' => hcs c' (List.mem_cons_of_mem _ h'))]
    simp only [applyChange]
    rw [if_neg (hcs c (List.mem_cons_self c cs))]

/-- Every change of a tick's batch targets a 4-neighbour of its object. -/
theorem changesFor_targets (m : Grid) (obj : GameObject) :
    ∀ c ∈ changesFor m obj, (c.x, c.y) ∈ getNeighbors obj.x obj.y := by
  intro c hc
  obtain ⟨n, hn, hx, hy, _⟩ := mem_changesFor hc
  rw [hx, hy]
  exact hn

/-- Evaluating a batch application at one cell: only the changes targeting
that cell act, in batch order, each overwriting just the fields it sets. -/
theorem foldl_applyChange_point :
    ∀ (cs : List Change) (m : Grid) (y x : Nat),
      (cs.foldl applyChange m) y x
        = (cs.filter (fun c => c.y == y && c.x == x)).foldl tileApply (m y x) := by
  intro cs
  induction cs with
  | nil => intro m y x; rfl
  | cons c cs ih =>
    intro m y x
    simp only [List.foldl_cons, List.filter_cons]
    by_cases ht : c.y = y ∧ c.x = x
    · rw [if_pos (by simp [ht.1, ht.2])]
      simp only [List.foldl_cons]
      rw [ih]
      have : applyChange m c y x = tileApply (m y x) c := by
        simp only [applyChange, tileApply]
        rw [if_pos ⟨ht.1.symm, ht.2.symm⟩]
      rw [this]
    · rw [if_neg (by simpa using fun h1 h2 => ht ⟨h1, h2⟩)]
      rw [ih]
      have : applyChange m c y x = m y x := by
        simp only [applyChange]
        rw [if_neg (fun h => ht ⟨h.1.symm, h.2.symm⟩)]
      rw [this]

/-- C10: a tick rewrites only 4-neighbours of placed objects — any cell that
neighbours no object keeps its exact tile, and with no objects the whole
grid is untouched; moreover a spread-grass change carries no height payload,
and applying a heightless change leaves the target's height intact. -/
theorem updateMap_frame (m : Grid) (objects : List GameObject) (y x : Nat) :
    ((∀ obj ∈ objects, (x, y) ∉ getNeighbors obj.x obj.y) →
        updateMap m objects y x = m y x) ∧
    (updateMap m [] y x = m y x) ∧
    (∀ obj ∈ objects, obj.effect = Effect.spread_grass →
        ∀ c ∈ changesFor m obj, c.height = none ∧ c.type = some GRASS_id) ∧
    (∀ c : Change, c.height = none →
        ((applyChange m c) c.y c.x).height = (m c.y c.x).height) := by
  refine ⟨?_, rfl, ?_, ?_⟩
  · intro hno
    refine foldl_applyChange_frame _ m y x ?_
    intro c hc hyx
    simp only [List.mem_flatMap] at hc
    obtain ⟨obj, hobj, hc⟩ := hc
    have hmem := changesFor_targets m obj c hc
    rw [← hyx.2, ← hyx.1] at hmem
    exact hno obj hobj hmem
  · intro obj _ heff c hc
    obtain ⟨n, _, _, _, hcase⟩ := mem_changesFor hc
    rcases hcase with ⟨hbad, _⟩ | ⟨hbad, _⟩ | ⟨hbad, _⟩ | ⟨_, _, hh, ht⟩
    · rw [heff] at hbad; exact absurd hbad (by decide)
    · rw [heff] at hbad; exact absurd hbad (by decide)
    · rw [heff] at hbad; exact absurd hbad (by decide)
    · exact ⟨hh, ht⟩
  · intro c hnone
    simp [applyChange, hnone]

/-- Witness for C10: a lone tree at `(1, 1)` leaves faraway `(9, 9)` alone. -/
theorem updateMap_frame_witness :
    updateMap (fun _ _ => { type := GRASS_id, height := 1 })
        [{ x := 1, y := 1, type := ObjKind.tree, effect := Effect.spread_grass }] 9 9
      = { type := GRASS_id, height := 1 } :=
  (updateMap_frame (fun _ _ => { type := GRASS_id, height := 1 })
    [{ x := 1, y := 1, type := ObjKind.tree, effect := Effect.spread_grass }] 9 9).1
    (by decide)

/-- C4 (amended): a tick computes its whole batch from the pre-tick grid and
then replays, at every cell, exactly the batch entries targeting that cell in
object-iteration order, each entry overwriting just the fields it sets (so
the last delta wins field-wise, not wholesale). -/
theorem updateMap_batch (m : Grid) (objects : List GameObject) (y x : Nat) :
    updateMap m objects y x
      = ((objects.flatMap (changesFor m)).filter (fun c => c.y == y && c.x == x)).foldl
          tileApply (m y x) :=
  foldl_applyChange_point (objects.flatMap (changesFor m)) m y x

/-- C4 counterexample: with a fountain then an obelisk both adjacent to
`(2, 0)`, the last delta targeting that cell is the obelisk's height-only
delta, but the post-tick tile is water (the earlier fountain delta's type
write survives), so the last delta alone does not determine the cell's
post-tick value. -/
theorem updateMap_last_delta_cex :
    ((cexObjs.flatMap (changesFor cexGrid)).filter
        (fun c => c.y == 0 && c.x == 2)).getLast?
      = some { x := 2, y := 0, height := some 1, type := none } ∧
    updateMap cexGrid cexObjs 0 2 = { type := WATER_id, height := 1 } ∧
    tileApply (cexGrid 0 2) { x := 2, y := 0, height := some 1, type := none }
      = { type := GRASS_id, height := 1 } ∧
    ({ type := WATER_id, height := 1 } : Tile) ≠ { type := GRASS_id, height := 1 } := by
  refine ⟨by decide, by decide, by decide, by decide⟩

/-- C6: a lone fountain at `(5, 5)` on height-1 grass with height-1 grass at
`(6, 5)` turns `(6, 5)` into water of height 1 in one tick. -/
theorem fountain_tick (m : Grid)
    (h55 : m 5 5 = { type := GRASS_id, height := 1 })
    (h65 : m 5 6 = { type := GRASS_id, height := 1 }) :
    updateMap m
        [{ x := 5, y := 5, type := ObjKind.fountain, effect := Effect.raise_water }] 5 6
      = { type := WATER_id, height := 1 } := by
  have hn : getNeighbors 5 5 = [(4, 5), (6, 5), (5, 4), (5, 6)] := by decide
  show (([{ x := 5, y := 5, type := ObjKind.fountain, effect := Effect.raise_water }] :
        List GameObject).flatMap
      (changesFor m)).foldl applyChange m 5 6 = { type := WATER_id, height := 1 }
  rw [foldl_applyChange_point]
  simp only [List.flatMap_cons, List.flatMap_nil, List.append_nil, changesFor, hn, h55, h65]
  simp [GRASS_id, WATER_id, List.filter_append,
    apply_ite (List.filter (fun c : Change => c.y == 5 && c.x == 6)), List.filter, tileApply,
    ite_self]

/-- Witness for C6 on a concrete all-grass height-1 grid. -/
theorem fountain_tick_witness :
    updateMap (fun _ _ => { type := GRASS_id, height := 1 })
        [{ x := 5, y := 5, type := ObjKind.fountain, effect := Effect.raise_water }] 5 6
      = { type := WATER_id, height := 1 } :=
  fountain_tick (fun _ _ => { type := GRASS_id, height := 1 }) rfl rfl

/-- A successful or rejected click keeps object cells pairwise distinct. -/
theorem placeObject_preserves (objs : List GameObject) (tool : ObjKind) (x y : Nat)
    (h : objs.Pairwise (fun a b => ¬(a.x = b.x ∧ a.y = b.y))) :
    ((placeObject objs tool x y).getD objs).Pairwise
      (fun a b => ¬(a.x = b.x ∧ a.y = b.y)) := by
  unfold placeObject
  cases hf : objs.find? (fun obj => obj.x == x && obj.y == y) with
  | some o => simpa using h
  | none =>
    simp only [Option.getD_some]
    rw [List.pairwise_append]
    refine ⟨h, List.pairwise_singleton _ _, ?_⟩
    intro a ha b hb
    simp only [List.mem_singleton] at hb
    subst hb
    have hnot := List.find?_eq_none.mp hf a ha
    simp only [Bool.and_eq_true, beq_iff_eq, not_and] at hnot
    intro hcon
    exact hnot hcon.1 hcon.2

/-- C5: a click on an occupied cell is rejected, a click on a free cell
appends exactly the new object with the effect the table assigns its kind,
and any click sequence from reset keeps all object cells pairwise distinct. -/
theorem placeObject_spec :
    (∀ (objs : List GameObject) (tool : ObjKind) (x y : Nat),
        (∃ o ∈ objs, o.x = x ∧ o.y = y) → placeObject objs tool x y = none) ∧
    (∀ (objs : List GameObject) (tool : ObjKind) (x y : Nat),
        (∀ o ∈ objs, ¬(o.x = x ∧ o.y = y)) →
        placeObject objs tool x y
          = some (objs ++
              [{ x := x, y := y, type := tool, effect := (OBJECT_TYPES tool).effect }])) ∧
    (∀ cmds : List (ObjKind × Nat × Nat),
        (placeAll cmds).Pairwise (fun a b => ¬(a.x = b.x ∧ a.y = b.y))) := by
  refine ⟨?_, ?_, ?_⟩
  · rintro objs tool x y ⟨o, ho, hxy⟩
    unfold placeObject
    cases hf : objs.find? (fun obj => obj.x == x && obj.y == y) with
    | some o' => rfl
    | none =>
      exfalso
      have hnot := List.find?_eq_none.mp hf o ho
      simp only [Bool.and_eq_true, beq_iff_eq, not_and] at hnot
      exact hnot hxy.1 hxy.2
  · intro objs tool x y hfree
    unfold placeObject
    cases hf : objs.find? (fun obj => obj.x == x && obj.y == y) with
    | some o =>
      exfalso
      have hmem := List.mem_of_find?_eq_some hf
      have hpred := List.find?_some hf
      simp only [Bool.and_eq_true, beq_iff_eq] at hpred
      exact hfree o hmem ⟨hpred.1, hpred.2⟩
    | none => rfl
  · intro cmds
    have key : ∀ (cs : List (ObjKind × Nat × Nat)) (objs : List GameObject),
        objs.Pairwise (fun a b => ¬(a.x = b.x ∧ a.y = b.y)) →
        (cs.foldl (fun objs c => (placeObject objs c.1 c.2.1 c.2.2).getD objs) objs).Pairwise
          (fun a b => ¬(a.x = b.x ∧ a.y = b.y)) := by
      intro cs
      induction cs with
      | nil => intro objs h; exact h
      | cons c rest ih =>
        intro objs h
        simp only [List.foldl_cons]
        exact ih _ (placeObject_preserves objs c.1 c.2.1 c.2.2 h)
    exact key cmds [] List.Pairwise.nil

/-- Witness for C5: a second object on the occupied cell `(2, 3)` is
rejected, and placing on the free cell `(4, 4)` appends the new object. -/
theorem placeObject_spec_witness :
    placeObject [{ x := 2, y := 3, type := ObjKind.tree, effect := Effect.spread_grass }]
        ObjKind.obelisk 2 3 = none ∧
    placeObject [] ObjKind.fountain 4 4
      = some [{ x := 4, y := 4, type := ObjKind.fountain, effect := Effect.raise_water }] :=
  ⟨placeObject_spec.1 _ ObjKind.obelisk 2 3 (by decide),
   placeObject_spec.2.1 [] ObjKind.fountain 4 4 (by decide)⟩

/-- A scan over cells none of which hits returns nothing. -/
theorem findSome_eq_none_of_all {α β : Type} (f : α → Option β) :
    ∀ l : List α, (∀ a ∈ l, f a = none) → l.findSome? f = none := by
  intro l
  induction l with
  | nil => intro _; rfl
  | cons a l ih =>
    intro h
    rw [List.findSome?_cons, h a (List.mem_cons_self a l)]
    exact ih (fun b hb => h b (List.mem_cons_of_mem a hb))

/-- A hit in the first part of a scan decides the whole scan. -/
theorem findSome_append_first {α β : Type} (f : α → Option β) (v : β) :
    ∀ l1 l2 : List α, l1.findSome? f = some v → (l1 ++ l2).findSome? f = some v := by
  intro l1
  induction l1 with
  | nil => intro l2 h; exact absurd h (by simp)
  | cons a l ih =>
    intro l2 h
    rw [List.cons_append, List.findSome?_cons]
    rw [List.findSome?_cons] at h
    cases hfa : f a with
    | some b => rw [hfa] at h; simpa [hfa] using h
    | none => rw [hfa] at h; simpa [hfa] using ih l2 h

/-- A missed first part of a scan defers to the second part. -/
theorem findSome_append_skip {α β : Type} (f : α → Option β) :
    ∀ l1 l2 : List α, l1.findSome? f = none →
      (l1 ++ l2).findSome? f = l2.findSome? f := by
  intro l1
  induction l1 with
  | nil => intro l2 _; rfl
  | cons a l ih =>
    intro l2 h
    rw [List.cons_append, List.findSome?_cons]
    rw [List.findSome?_cons] at h
    cases hfa : f a with
    | some b => rw [hfa] at h; exact absurd h (by simp)
    | none => rw [hfa] at h; simpa [hfa] using ih l2 h

/-- Scanning `0, 1, ..., n-1`: if everything before `k` misses and `k` hits
with `v`, the scan returns `v`. -/
theorem findSome_range_eq {β : Type} (f : Nat → Option β) (v : β) :
    ∀ (n k : Nat), k < n → (∀ j, j < k → f j = none) → f k = some v →
      (List.range n).findSome? f = some v := by
  intro n
  induction n with
  | zero => intro k hk; omega
  | succ m ih =>
    intro k hk hnone hk2
    rw [List.range_succ]
    by_cases hkm : k < m
    · exact findSome_append_first f v _ _ (ih k hkm hnone hk2)
    · have hkeq : k = m := by omega
      subst hkeq
      rw [findSome_append_skip f _ _ (findSome_eq_none_of_all f _
        (fun j hj => hnone j (List.mem_range.mp hj)))]
      rw [List.findSome?_cons, hk2]

/-- A cell failing the diamond containment test is never returned. -/
theorem cellHit_none_of_not_diamond (m : Grid) (rotation : Nat) (mouseX mouseY : ℚ)
    (x y : Nat) (h : ¬ diamondTest m rotation mouseX mouseY x y) :
    cellHit m rotation mouseX mouseY x y = none := by
  simp only [cellHit]
  split_ifs with h1 <;> rfl

/-- C8: a pointer position whose normalized-diamond containment test fails at
every view-space cell makes `screenToIso` return `none`. -/
theorem screenToIso_miss (m : Grid) (rotation : Nat) (mouseX mouseY : ℚ)
    (h : ∀ x, x < gridSize → ∀ y, y < gridSize →
        ¬ diamondTest m rotation mouseX mouseY x y) :
    screenToIso m rotation mouseX mouseY = none := by
  unfold screenToIso
  apply findSome_eq_none_of_all
  intro a ha
  apply findSome_eq_none_of_all
  intro b hb
  exact cellHit_none_of_not_diamond m rotation mouseX mouseY b a
    (h b (List.mem_range.mp hb) a (List.mem_range.mp ha))

/-- A cell passing the diamond test pins the pointer's x-offset from the
tile's top-face centre below half a tile width. -/
theorem diamondTest_dx_bound (m : Grid) (rotation : Nat) (mouseX mouseY : ℚ) (x y : Nat)
    (h : diamondTest m rotation mouseX mouseY x y) :
    |mouseX - (((isoToScreen (x : Int) (y : Int)).1 : ℚ) + 32)| < 32 := by
  obtain ⟨h1, h2⟩ := h
  simp only [transformedCoords, isoTileWidth, isoTileHeight, heightStep] at h1 h2
  push_cast at h1 h2
  rw [abs_lt] at h1 h2 ⊢
  constructor <;> [nlinarith [h1.1, h1.2, h2.1, h2.2]; nlinarith [h1.1, h1.2, h2.1, h2.2]]

/-- Witness for C8: a pointer far to the left of the rendered footprint. -/
theorem screenToIso_miss_witness :
    screenToIso (fun _ _ => { type := GRASS_id, height := 1 }) 0 (-100) 0 = none := by
  apply screenToIso_miss
  intro x hx y hy hd
  have hb := diamondTest_dx_bound (fun _ _ => { type := GRASS_id, height := 1 }) 0
    (-100) 0 x y hd
  have hy16 : y < 16 := hy
  have hp : (32 : Int) ≤ (isoToScreen (x : Int) (y : Int)).1 := by
    simp only [isoToScreen, canvasWidth, isoTileWidth, gridSize]
    omega
  have hpq : ((32 : Int) : ℚ) ≤ (((isoToScreen (x : Int) (y : Int)).1 : Int) : ℚ) := by
    exact_mod_cast hp
  rw [abs_lt] at hb
  push_cast at hpq
  linarith [hb.1, hb.2]

/-- The scan body hits at a tile's own projected top-face centre and returns
that tile's map coordinates. -/
theorem cellHit_center (m : Grid) (r vx vy : Nat) :
    cellHit m r (tileCenter m r vx vy).1 (tileCenter m r vx vy).2 vx vy
      = some (getRotatedCoords r vx vy) := by
  simp only [cellHit, tileCenter, diamondTest, transformedCoords, isoTileWidth, isoTileHeight,
    heightStep]
  push_cast
  rw [if_pos, if_pos]
  · constructor <;> (ring_nf; norm_num)
  · refine ⟨by linarith, by linarith, by linarith, by linarith⟩

/-- C7 (amended): picking at a tile's projected top-face centre returns that
tile's map coordinates, provided no cell scanned earlier (smaller view row,
or same row and smaller view column) passes the diamond test at that point. -/
theorem screenToIso_center (m : Grid) (r : Nat) (hr : r < 4)
    (vx : Nat) (hvx : vx < gridSize) (vy : Nat) (hvy : vy < gridSize)
    (hbefore : ∀ x, x < gridSize → ∀ y, y < gridSize →
        (y < vy ∨ (y = vy ∧ x < vx)) →
        ¬ diamondTest m r (tileCenter m r vx vy).1 (tileCenter m r vx vy).2 x y) :
    screenToIso m r (tileCenter m r vx vy).1 (tileCenter m r vx vy).2
      = some (getRotatedCoords r vx vy) := by
  unfold screenToIso
  apply findSome_range_eq _ _ gridSize vy hvy
  · intro j hj
    apply findSome_eq_none_of_all
    intro b hb
    exact cellHit_none_of_not_diamond m r _ _ b j
      (hbefore b (List.mem_range.mp hb) j (lt_trans hj hvy) (Or.inl hj))
  · apply findSome_range_eq _ _ gridSize vx hvx
    · intro i hi
      exact cellHit_none_of_not_diamond m r _ _ i vy
        (hbefore i (lt_trans hi hvx) vy hvy (Or.inr ⟨rfl, hi⟩))
    · exact cellHit_center m r vx vy

/-- Witness for C7 at the first scanned cell, rotation 2, where the
earlier-cell hypothesis is vacuous. -/
theorem screenToIso_center_witness :
    screenToIso (fun _ _ => { type := GRASS_id, height := 1 }) 2
        (tileCenter (fun _ _ => { type := GRASS_id, height := 1 }) 2 0 0).1
        (tileCenter (fun _ _ => { type := GRASS_id, height := 1 }) 2 0 0).2
      = some (getRotatedCoords 2 0 0) :=
  screenToIso_center (fun _ _ => { type := GRASS_id, height := 1 }) 2 (by decide)
    0 (by decide) 0 (by decide)
    (fun x _ y _ hg => absurd hg (by omega))

/-- C7 counterexample: on `cexPickGrid` at rotation 0, the projected top-face
centre of tile `(1, 1)` is the screen point `(544, 100)`, yet `screenToIso`
returns `(0, 0)` — the height-0 cell scanned earlier on the same diagonal —
rather than `(1, 1)`. -/
theorem screenToIso_center_cex :
    tileCenter cexPickGrid 0 1 1 = (544, 100) ∧
    getRotatedCoords 0 1 1 = (1, 1) ∧
    screenToIso cexPickGrid 0 544 100 = some (0, 0) ∧
    ((0 : Nat), (0 : Nat)) ≠ ((1 : Nat), (1 : Nat)) := by
  have hstep : heightStep = 16 := by decide
  have hrot : getRotatedCoords 0 1 1 = (1, 1) := by decide
  refine ⟨?_, hrot, ?_, by decide⟩
  · have hiso : isoToScreen 1 1 = ((512 : Int), (32 : Int)) := by decide
    have hgrid : cexPickGrid 1 1 = { type := GRASS_id, height := 2 } := by decide
    simp only [tileCenter, hrot, hstep, hgrid, isoTileWidth]
    push_cast
    rw [hiso]
    norm_num [Prod.ext_iff]
  · unfold screenToIso
    apply findSome_range_eq _ _ gridSize 0 (by norm_num [gridSize])
    · intro j hj; omega
    · apply findSome_range_eq _ _ gridSize 0 (by norm_num [gridSize])
      · intro j hj; omega
      · have hiso0 : isoToScreen 0 0 = ((512 : Int), (0 : Int)) := by decide
        have hrot0 : getRotatedCoords 0 0 0 = (0, 0) := by decide
        have hgrid0 : cexPickGrid 0 0 = { type := GRASS_id, height := 0 } := by decide
        simp only [cellHit, diamondTest, transformedCoords, hrot0, hstep, hgrid0,
          isoTileWidth, isoTileHeight]
        push_cast
        rw [hiso0]
        norm_num

